import Mathlib

/-!
Verification of the atomic-upgrade system-config repository.

The development shallowly embeds the two Python modules
`usr/local/lib/atomic/fstab.py` and `usr/local/lib/atomic/rootdev.py`.
Python strings are modelled as `List Char` (`Str`), so that every string
operation is an executable structural recursion that the kernel can
evaluate.  The filesystem touched by `update_fstab` is modelled as an
association list from (canonical) path strings to file contents; the
external commands queried by `detect_root` are modelled as an oracle from
argument vectors to process outcomes.
-/

/-- Python strings are modelled as lists of characters. -/
abbrev Str := List Char

/-- Converts a Lean string literal to the `Str` model. -/
def str (s : String) : Str := s.data

/-- The characters Python's default `str.strip()` / `str.split()` treat as
whitespace (ASCII range; the rare further Unicode space characters are not
needed by any input in this development). -/
def pyIsSpace (c : Char) : Bool :=
  c = ' ' || c = '\t' || c = '\n' || c = '\r' || c = '\x0b' || c = '\x0c'

/-- Python `s.strip()`: removes leading and trailing whitespace. -/
def pyStrip (s : Str) : Str :=
  ((s.dropWhile pyIsSpace).reverse.dropWhile pyIsSpace).reverse

/-- Python `s.lstrip("/")`: removes leading slashes. -/
def pyLstripSlash (s : Str) : Str :=
  s.dropWhile (· = '/')

/-- Python `s.strip("/")`: removes leading and trailing slashes. -/
def pyStripSlash (s : Str) : Str :=
  ((s.dropWhile (· = '/')).reverse.dropWhile (· = '/')).reverse

/-- Python `s.split(c)` for a one-character separator: keeps empty pieces;
`"".split(c)` is `[""]`.  The result is always non-empty. -/
def splitOnChar (c : Char) : Str → List Str
  | [] => [[]]
  | a :: rest =>
    match splitOnChar c rest with
    | [] => [[]]
    | r :: rs => if a = c then [] :: r :: rs else (a :: r) :: rs

/-- Helper for Python `sep.join(pieces)`. -/
def joinWith (sep : Str) : List Str → Str
  | [] => []
  | [x] => x
  | x :: y :: rest => x ++ sep ++ joinWith sep (y :: rest)

/-- Accumulator for `pySplit`; the accumulator holds the current word
reversed. -/
def pySplitAux : Str → Str → List Str
  | acc, [] => if acc.isEmpty then [] else [acc.reverse]
  | acc, c :: rest =>
    if pyIsSpace c then
      if acc.isEmpty then pySplitAux [] rest
      else acc.reverse :: pySplitAux [] rest
    else pySplitAux (c :: acc) rest

/-- Python `s.split()` (no argument): splits on whitespace runs and drops
empty pieces. -/
def pySplit (s : Str) : List Str := pySplitAux [] s

/-- The line-terminator characters recognised by Python `str.splitlines`. -/
def lineTermChar (c : Char) : Bool :=
  c = '\n' || c = '\r' || c = '\x0b' || c = '\x0c' ||
  c = '\x1c' || c = '\x1d' || c = '\x1e' ||
  c = Char.ofNat 0x85 || c = Char.ofNat 0x2028 || c = Char.ofNat 0x2029

/-- Accumulator for `splitlinesKeepends`; the accumulator holds the current
line reversed. -/
def splitlinesAux : Str → Str → List Str
  | acc, [] => if acc.isEmpty then [] else [acc.reverse]
  | acc, '\r' :: '\n' :: rest => (acc.reverse ++ ['\r', '\n']) :: splitlinesAux [] rest
  | acc, c :: rest =>
    if lineTermChar c then (acc.reverse ++ [c]) :: splitlinesAux [] rest
    else splitlinesAux (c :: acc) rest

/-- Python `s.splitlines(keepends=True)`. -/
def splitlinesKeepends (s : Str) : List Str := splitlinesAux [] s

/-- Removes one trailing line terminator (`\r\n` counts as one). -/
def dropLineEnd (l : Str) : Str :=
  match l.reverse with
  | '\n' :: '\r' :: rest => rest.reverse
  | c :: rest => if lineTermChar c then rest.reverse else l
  | [] => []

/-- Python `s.splitlines()` (without keepends). -/
def splitlines (s : Str) : List Str :=
  (splitlinesKeepends s).map dropLineEnd

/-- Python substring containment `needle in hay`. -/
def strHas (needle : Str) : Str → Bool
  | [] => needle.isEmpty
  | c :: rest => needle.isPrefixOf (c :: rest) || strHas needle rest

/-- Python `s.rsplit("/", 1)[-1]`: the part after the last slash (the whole
string when it has no slash). -/
def lastComponent (s : Str) : Str :=
  (s.reverse.takeWhile (· ≠ '/')).reverse

/-!
Section: The `FstabEntry` model (`fstab.py`, class `FstabEntry`)
-/

/-- One fstab line, data or comment/blank (`fstab.py` dataclass
`FstabEntry`).  Field defaults mirror the dataclass defaults. -/
structure FstabEntry where
  raw : Str
  device : Str := []
  mountpoint : Str := []
  fstype : Str := []
  options : Str := []
  dump : Str := str "0"
  passno : Str := str "0"
  is_data : Bool := false
  deriving DecidableEq, Repr

/-- Models `FstabEntry.parse` (`fstab.py` lines 39-59): parse a single fstab line;
non-data lines are preserved as-is. -/
def FstabEntry.parse (line : Str) : FstabEntry :=
  let stripped := pyStrip line
  if stripped.isEmpty || (str "#").isPrefixOf stripped then { raw := line }
  else
    let parts := pySplit stripped
    if parts.length < 4 then { raw := line }
    else
      { raw := line
        device := parts.getD 0 []
        mountpoint := parts.getD 1 []
        fstype := parts.getD 2 []
        options := parts.getD 3 []
        dump := if parts.length > 4 then parts.getD 4 [] else str "0"
        passno := if parts.length > 5 then parts.getD 5 [] else str "0"
        is_data := true }

/-- The body of the option loop of `FstabEntry.replace_subvol` (`fstab.py`
lines 79-88): a `subvol=`-prefixed option whose value matches `old_norm`
after stripping leading slashes is replaced — keeping a single leading
slash when the original value had one — and every other option is copied
through.  `val := opt[len("subvol="):]` is `opt.drop 7`. -/
def subvolOptStep (old_norm new_norm : Str) (opt : Str) : Bool × Str :=
  if (str "subvol=").isPrefixOf opt then
    let val := opt.drop 7
    if pyLstripSlash val = old_norm then
      (true, str "subvol=" ++
        ((if (str "/").isPrefixOf val then str "/" else []) ++ new_norm))
    else (false, opt)
  else (false, opt)

/-- Models `FstabEntry.replace_subvol` (`fstab.py` lines 61-92).  The Python method
mutates `self.options` and returns a `bool`; here the changed flag and the
updated entry are returned as a pair.  (Python only reassigns
`self.options` when a change happened; joining the unchanged pieces would
give back the same string, but the conditional is kept as in the source.) -/
def FstabEntry.replace_subvol (e : FstabEntry) (old new : Str) : Bool × FstabEntry :=
  if !e.is_data then (false, e)
  else
    let opts := splitOnChar ',' e.options
    let stepped := opts.map (subvolOptStep (pyStripSlash old) (pyStripSlash new))
    let changed := stepped.any (·.1)
    if changed then (changed, { e with options := joinWith (str ",") (stepped.map (·.2)) })
    else (changed, e)

/-- Models `FstabEntry.format` (`fstab.py` lines 94-105): data entries are
re-serialized with tabs, non-data lines are returned verbatim. -/
def FstabEntry.format (e : FstabEntry) : Str :=
  if !e.is_data then e.raw
  else
    e.device ++ str "\t" ++ e.mountpoint ++ str "\t" ++ e.fstype ++ str "\t" ++
    e.options ++ str "\t" ++ e.dump ++ str " " ++ e.passno ++ str "\n"

/-!
Section: Filesystem model for the fstab update pipeline

`update_fstab` manipulates a small set of regular files.  The filesystem is
modelled as an association list from canonical path strings (absolute,
no trailing or doubled slash — the shape under which the CLI is invoked)
to file contents.  Ownership and permission metadata (`shutil.copy2`,
`os.chown`, `os.chmod`) are not modelled: no claim in this development
depends on them, only on names and contents.
-/

/-- The filesystem: path / content pairs, first match wins. -/
abbrev FS := List (Str × Str)

/-- Reads a file; `none` means the path does not reference an existing
regular file. -/
def FS.read (fs : FS) (p : Str) : Option Str :=
  (fs.find? (fun e => e.1 == p)).map (·.2)

/-- Creates or overwrites a file. -/
def FS.write (fs : FS) (p c : Str) : FS :=
  (p, c) :: fs.filter (fun e => !(e.1 == p))

/-- Removes a file. -/
def FS.erase (fs : FS) (p : Str) : FS :=
  fs.filter (fun e => !(e.1 == p))

/-- Models `os.replace(src, dst)` / `Path.replace`: atomic rename over an existing
destination.  Renaming a path onto itself is a no-op; renaming a missing
source would raise in Python and is never reached by the pipeline (the
source is written immediately before the rename). -/
def FS.rename (fs : FS) (src dst : Str) : FS :=
  if src = dst then fs
  else
    match fs.read src with
    | none => fs
    | some c => ((fs.erase src).write dst c)

/-- The name minus its last extension, following `PurePath.suffix`: the
extension starts at the last dot when that dot sits at a position `i` with
`0 < i < len - 1`; otherwise the name has no extension and is kept whole. -/
def nameStem (name : Str) : Str :=
  match name.reverse.findIdx? (· = '.') with
  | none => name
  | some j =>
    let i := name.length - 1 - j
    if 0 < i && i < name.length - 1 then name.take i else name

/-- Models `PurePath.with_suffix` applied to the final name component: Python
replaces the name's last extension by `suffix`, and appends `suffix` when
the name has no extension. -/
def withSuffixName (name suffix : Str) : Str :=
  nameStem name ++ suffix

/-- Models `Path(p).with_suffix(suffix)` for a canonical path string: the suffix
replacement acts on the component after the last slash.  (A path whose
final component is empty would make Python raise; such a path can never
pass the `is_file` check that precedes every use in the pipeline.) -/
def withSuffix (p suffix : Str) : Str :=
  (p.reverse.dropWhile (· ≠ '/')).reverse ++
    withSuffixName (p.reverse.takeWhile (· ≠ '/')).reverse suffix

/-!
Section: The fstab update pipeline (`fstab.py`, `update_fstab`, lines 108-176)

The stages of the pipeline are named so that the theorems below can state
hypotheses about the intermediate values the source computes.
-/

/-- The `e.is_data and e.mountpoint == "/"` test selecting root entries
(`fstab.py` line 134). -/
def isRootEntry (e : FstabEntry) : Bool :=
  e.is_data && e.mountpoint == str "/"

/-- Models `fstab.py` lines 130-131: split the file into lines (terminators kept)
and parse each line. -/
def fstabEntries (content : Str) : List FstabEntry :=
  (splitlinesKeepends content).map FstabEntry.parse

/-- One step of the rewrite loop (`fstab.py` lines 141-143): root entries
are rewritten in place, every other entry is untouched.  (Python mutates
the aliased entry objects inside `root_entries`; mapping the rewrite over
the full entry list is the same transformation.) -/
def rewriteStep (old new : Str) (e : FstabEntry) : Bool × FstabEntry :=
  if isRootEntry e then e.replace_subvol old new else (false, e)

/-- The entry list after the rewrite loop. -/
def rewrittenEntries (content old new : Str) : List FstabEntry :=
  ((fstabEntries content).map (rewriteStep old new)).map (·.2)

/-- The `updated` counter of `fstab.py` lines 140-143. -/
def updatedCount (content old new : Str) : Nat :=
  (((fstabEntries content).map (rewriteStep old new)).filter (·.1)).length

/-- The text written to the `.tmp` file (`fstab.py` line 161):
`"".join(e.format() for e in entries)`. -/
def newFileText (content old new : Str) : Str :=
  joinWith [] ((rewrittenEntries content old new).map FstabEntry.format)

/-- Models `update_fstab` (`fstab.py` lines 108-176).

The extra `tamper` argument models the suspension point between the atomic
rename (line 166) and the verification re-read (line 170): an external
writer may replace the just-committed content before the pipeline re-reads
it.  An undisturbed run is `tamper = id`.

The result is `none` when an exception escapes (the only in-model source is
`shutil.copy2(path, backup)` raising `SameFileError` when the `.bak`
sibling coincides with `path`), and otherwise `some (success, fs)` for the
boolean the function returns together with the final filesystem. -/
def update_fstab (fs : FS) (path old_subvol new_subvol : Str) (tamper : Str → Str) :
    Option (Bool × FS) :=
  match fs.read path with
  | none => some (false, fs)
  | some content =>
    let backup := withSuffix path (str ".bak")
    if backup = path then none
    else
      let fs1 := fs.write backup content
      if ((fstabEntries content).filter isRootEntry).isEmpty then some (false, fs1)
      else if updatedCount content old_subvol new_subvol = 0 then some (false, fs1)
      else
        -- an `updated > 1` run only prints a warning; no state effect
        let tmp := withSuffix path (str ".tmp")
        let out := newFileText content old_subvol new_subvol
        let fs2 := fs1.write tmp out
        let fs3 := FS.rename fs2 tmp path
        let new_norm := pyStripSlash new_subvol
        let fs4 := fs3.write path (tamper out)
        let text := tamper out
        if !(strHas (str "subvol=/" ++ new_norm) text) &&
           !(strHas (str "subvol=" ++ new_norm) text) then
          some (false, fs4.write path ((fs4.read backup).getD []))
        else
          some (true, fs4)

/-!
Section: The root-device detector (`rootdev.py`)

External commands are abstract: a `World` maps every argument vector to a
process `Outcome`, and `run` (`rootdev.py` lines 23-34) maps an outcome to
the text the Python wrapper returns.  The one external library step,
`json.loads` plus the `["filesystems"][0]` / `.get` extraction applied to
the `findmnt` output (lines 53-59), is abstracted as the `jsonParse` field
of the world: `none` models the caught `JSONDecodeError/KeyError/
IndexError`, and absent keys are the `.get` defaults (empty strings).
-/

/-- The outcome of one `subprocess.run` invocation. -/
inductive Outcome
  | ok (returncode : Int) (stdout : Str)
  | timeout
  | notFound
  deriving DecidableEq

/-- Whether an outcome is one of the failure modes the spec lists: tool
absent, non-zero exit status, or timeout. -/
def Outcome.isFailure : Outcome → Bool
  | .ok rc _ => !(rc == 0)
  | .timeout => true
  | .notFound => true

/-- Models `run` (`rootdev.py` lines 23-34): stripped stdout on exit status 0,
empty string on non-zero exit, timeout, or missing executable. -/
def run (o : Outcome) : Str :=
  match o with
  | .ok rc out => if rc == 0 then pyStrip out else []
  | .timeout => []
  | .notFound => []

/-- The three fields extracted from the `findmnt` JSON document, with the
`.get(_, "")` defaults for missing keys. -/
structure FindmntData where
  source : Str := []
  fstype : Str := []
  options : Str := []
  deriving DecidableEq

/-- The external world the detector runs against. -/
structure World where
  q : List Str → Outcome
  jsonParse : Str → Option FindmntData

/-- The result dict of `detect_root` (`rootdev.py` docstring lines 40-47);
`none` options model Python `None` values. -/
structure RootInfo where
  source : Str
  fstype : Str
  subvol : Option Str
  type : Str
  luks_uuid : Option Str
  luks_name : Option Str
  root_arg : Str
  deriving DecidableEq, Repr

/-- The argument vector of the `findmnt` query (`rootdev.py` line 49). -/
def findmntCmd : List Str :=
  [str "findmnt", str "-n", str "-J", str "-o", str "SOURCE,FSTYPE,OPTIONS", str "/"]

/-- The argument vector of the crypt-target table query (lines 98, 134). -/
def dmsetupCmd (m : Str) : List Str :=
  [str "dmsetup", str "table", str "--target", str "crypt", m]

/-- The argument vector of the encryption-status query (lines 105, 138). -/
def cryptsetupCmd (m : Str) : List Str :=
  [str "cryptsetup", str "status", m]

/-- The argument vector of the UUID lookup (lines 109, 142-145). -/
def blkidCmd (dev : Str) : List Str :=
  [str "blkid", str "-s", str "UUID", str "-o", str "value", dev]

/-- The argument vector of the logical-volume query (lines 116-119). -/
def lvsCmd (m : Str) : List Str :=
  [str "lvs", str "--noheadings", str "-o", str "vg_name,lv_name",
   str "/dev/mapper/" ++ m]

/-- The argument vector of the physical-volume query (lines 128-130). -/
def pvsCmd (vg : Str) : List Str :=
  [str "pvs", str "--noheadings", str "-o", str "pv_name", str "-S",
   str "vg_name=" ++ vg]

/-- The `cryptsetup status` + `blkid` scan shared by both crypt branches
(`rootdev.py` lines 105-112 and 138-148): find the first status line
containing `device:`, take its last whitespace-separated token, look up its
UUID, and keep the UUID only when it is truthy.  (The `break` after the
first matching line is what `List.find?` gives.) -/
def luksProbe (w : World) (m : Str) : Option Str :=
  let status := run (w.q (cryptsetupCmd m))
  match (splitlines status).find? (fun l => strHas (str "device:") l) with
  | none => none
  | some line =>
    let underlying := ((pySplit line).getLast?).getD []
    let uuid := run (w.q (blkidCmd underlying))
    if uuid.isEmpty then none else some uuid

/-- Models `_detect_dm_type` (`rootdev.py` lines 92-148).  Python mutates `info`
in place; here the updated record is returned. -/
def _detect_dm_type (w : World) (mapper : Str) (info : RootInfo) : RootInfo :=
  let table := run (w.q (dmsetupCmd mapper))
  if !table.isEmpty then
    let info1 := { info with
      type := str "luks"
      luks_name := some mapper
      root_arg := str "/dev/mapper/" ++ mapper }
    match luksProbe w mapper with
    | some uuid => { info1 with luks_uuid := some uuid }
    | none => info1
  else
    let lv_info := run (w.q (lvsCmd mapper))
    if !lv_info.isEmpty then
      let info1 := { info with
        type := str "lvm"
        root_arg := str "/dev/mapper/" ++ mapper }
      match (pySplit lv_info).head? with
      | none => info1
      | some vg =>
        let pv := pyStrip (run (w.q (pvsCmd vg)))
        if !pv.isEmpty && strHas (str "/mapper/") pv then
          let pv_mapper := lastComponent pv
          let pv_table := run (w.q (dmsetupCmd pv_mapper))
          if !pv_table.isEmpty then
            let info2 := { info1 with
              type := str "luks+lvm"
              luks_name := some pv_mapper }
            match luksProbe w pv_mapper with
            | some uuid => { info2 with luks_uuid := some uuid }
            | none => info2
          else info1
        else info1
    else info

/-- The initial `info` dict built by `detect_root` (`rootdev.py` lines
58-82): bracket-suffix stripping of the source, `subvol=` extraction from
the mount options (first match, value after the first `=`), and the
`plain` defaults. -/
def baseInfo (data : FindmntData) : RootInfo :=
  let source0 := data.source
  let source :=
    if strHas (str "[") source0 then source0.takeWhile (· ≠ '[') else source0
  let subvol :=
    ((splitOnChar ',' data.options).find?
      (fun o => (str "subvol=").isPrefixOf o)).map (·.drop 7)
  { source := source
    fstype := data.fstype
    subvol := subvol
    type := str "plain"
    luks_uuid := none
    luks_name := none
    root_arg := source }

/-- Models `detect_root` (`rootdev.py` lines 37-89); `none` is the empty dict the
Python function returns when the `findmnt` query or its JSON parse fails. -/
def detect_root (w : World) : Option RootInfo :=
  let raw := run (w.q findmntCmd)
  if raw.isEmpty then none
  else
    match w.jsonParse raw with
    | none => none
    | some data =>
      let info := baseInfo data
      if strHas (str "/mapper/") info.source ||
         (str "/dev/dm-").isPrefixOf info.source then
        some (_detect_dm_type w (lastComponent info.source) info)
      else
        some info

/-- Python `f-string` rendering of a possibly-`None` value (`None` prints as
`"None"`); used for `info['luks_name']` in `build_cmdline`. -/
def pyShowOpt (o : Option Str) : Str := o.getD (str "None")

/-- Python truthiness of an optional string: `None` and `""` are falsy. -/
def optTruthy (o : Option Str) : Bool :=
  match o with
  | none => false
  | some s => !s.isEmpty

/-- Models `build_cmdline` (`rootdev.py` lines 151-168). -/
def build_cmdline (info : RootInfo) (new_subvol : Str) : Str :=
  let parts : List Str := []
  let parts :=
    if (info.type == str "luks" || info.type == str "luks+lvm") && optTruthy info.luks_uuid
    then parts ++ [str "rd.luks.name=" ++ (info.luks_uuid.getD []) ++ str "=" ++
                   pyShowOpt info.luks_name]
    else parts
  let parts := parts ++ [str "root=" ++ info.root_arg]
  let parts :=
    if !info.fstype.isEmpty then parts ++ [str "rootfstype=" ++ info.fstype] else parts
  let parts := parts ++ [str "rootflags=subvol=" ++ new_subvol]
  joinWith (str " ") parts

/-!
Section: Concrete worlds and inputs used by the claim theorems
-/

/-- The `RootDeviceInfo` of C6's concrete example: `luks` topology with
uuid `abc-123`, name `root_crypt`, fstype `btrfs` and
`rootArg = /dev/mapper/root_crypt`. -/
def exC6 : RootInfo :=
  { source := str "/dev/mapper/root_crypt"
    fstype := str "btrfs"
    subvol := none
    type := str "luks"
    luks_uuid := some (str "abc-123")
    luks_name := some (str "root_crypt")
    root_arg := str "/dev/mapper/root_crypt" }

/-- The concrete table behind C3's counterexample: the mount-table path has
an extension of its own, so Python's `with_suffix` replaces it instead of
appending. -/
def exC3fs : FS := [(str "/etc/my.fstab", str "UUID=1 / btrfs subvol=old 0 0\n")]

/-- The world of C4's counterexample: `findmnt` reports a mapper-backed
btrfs root, the crypt-table query matches, but `cryptsetup status` times
out, so the UUID is never found. -/
def wC4 : World :=
  { q := fun c =>
      if c = findmntCmd then .ok 0 (str "J")
      else if c = dmsetupCmd (str "cr") then .ok 0 (str "0 8 crypt aes-xts")
      else .timeout
    jsonParse := fun _ =>
      some { source := str "/dev/mapper/cr", fstype := str "btrfs",
             options := str "rw,subvol=/root" } }

/-- The info `detect_root` produces in the `wC4` world. -/
def exC4info : RootInfo :=
  { source := str "/dev/mapper/cr"
    fstype := str "btrfs"
    subvol := some (str "/root")
    type := str "luks"
    luks_uuid := none
    luks_name := some (str "cr")
    root_arg := str "/dev/mapper/cr" }

/-- The world of C5's counterexample: an LVM-backed root whose volume group
has two physical volumes, both of them crypt mapper devices. -/
def wC5 : World :=
  { q := fun c =>
      if c = findmntCmd then .ok 0 (str "J")
      else if c = dmsetupCmd (str "vg0-root") then .ok 0 []
      else if c = lvsCmd (str "vg0-root") then .ok 0 (str "  vg0 root")
      else if c = pvsCmd (str "vg0") then
        .ok 0 (str "/dev/mapper/c1\n  /dev/mapper/c2")
      else if c = dmsetupCmd (str "c2") then .ok 0 (str "0 8 crypt aes-xts")
      else if c = cryptsetupCmd (str "c2") then .ok 0 (str "  device:  /dev/sda2")
      else if c = blkidCmd (str "/dev/sda2") then .ok 0 (str "def-456")
      else .timeout
    jsonParse := fun _ =>
      some { source := str "/dev/mapper/vg0-root", fstype := str "btrfs",
             options := str "rw" } }

/-- The base info `_detect_dm_type` receives in the `wC5` world. -/
def exC5base : RootInfo :=
  { source := str "/dev/mapper/vg0-root"
    fstype := str "btrfs"
    subvol := none
    type := str "plain"
    luks_uuid := none
    luks_name := none
    root_arg := str "/dev/mapper/vg0-root" }

/-- Replaces one query's outcome in a world. -/
def setQ (w : World) (c0 : List Str) (o : Outcome) : World :=
  { w with q := fun c => if c = c0 then o else w.q c }

/-- The world of C9's concrete fall-through: the crypt-table query times
out, and classification proceeds to the logical-volume check. -/
def wC9 : World :=
  { q := fun c =>
      if c = findmntCmd then .ok 0 (str "J")
      else if c = dmsetupCmd (str "vg0-root") then .timeout
      else if c = lvsCmd (str "vg0-root") then .ok 0 (str "  vg0 root")
      else if c = pvsCmd (str "vg0") then .ok 0 (str "/dev/sda2")
      else .timeout
    jsonParse := fun _ =>
      some { source := str "/dev/mapper/vg0-root", fstype := str "btrfs",
             options := str "rw" } }

/-- The options string produced by a matching rewrite: the replaced option
keeps a leading slash exactly when the original value `V` had one. -/
def rewrittenOptions (pre post : List Str) (V new : Str) : Str :=
  joinWith (str ",")
    (pre ++ (str "subvol=" ++
      ((if (str "/").isPrefixOf V then str "/" else []) ++ pyStripSlash new)) :: post)

/-!
Section: Helper lemmas
-/

theorem find?_key_filter_ne (l : List (Str × Str)) (p q : Str) (h : q ≠ p) :
    (l.filter (fun e => !(e.1 == p))).find? (fun e => e.1 == q) =
      l.find? (fun e => e.1 == q) := by
  induction l with
  | nil => rfl
  | cons a l ih =>
    by_cases hk : a.1 = p
    · have h1 : (a.1 == p) = true := by simp [hk]
      have h2 : (a.1 == q) = false := by
        simp only [beq_eq_false_iff_ne, ne_eq, hk]
        exact fun e => h e.symm
      simp [List.filter_cons, h1, List.find?, h2, ih]
    · have h1 : (a.1 == p) = false := by simp [hk]
      by_cases hq : a.1 = q
      · have h2 : (a.1 == q) = true := by simp [hq]
        simp [List.filter_cons, h1, List.find?, h2]
      · have h2 : (a.1 == q) = false := by simp [hq]
        simp [List.filter_cons, h1, List.find?, h2, ih]

theorem FS.read_write_self (fs : FS) (p c : Str) : (fs.write p c).read p = some c := by
  simp [FS.read, FS.write, List.find?]

theorem FS.read_write_ne (fs : FS) (p c : Str) {q : Str} (h : q ≠ p) :
    (fs.write p c).read q = fs.read q := by
  have h2 : (p == q) = false := by
    simp only [beq_eq_false_iff_ne, ne_eq]
    exact fun e => h e.symm
  simp [FS.read, FS.write, List.find?, h2, find?_key_filter_ne fs p q h]

theorem FS.read_erase_ne (fs : FS) (p : Str) {q : Str} (h : q ≠ p) :
    (fs.erase p).read q = fs.read q := by
  simp [FS.read, FS.erase, find?_key_filter_ne fs p q h]

theorem withSuffix_suffix_inj (p : Str) {s1 s2 : Str}
    (h : withSuffix p s1 = withSuffix p s2) : s1 = s2 := by
  unfold withSuffix withSuffixName at h
  exact List.append_cancel_left (List.append_cancel_left h)

theorem withSuffix_bak_ne_tmp (p : Str) :
    withSuffix p (str ".bak") ≠ withSuffix p (str ".tmp") := by
  intro h
  have := withSuffix_suffix_inj p h
  simp [str] at this

/-!
Section: Claim theorems
-/

/-- C8: for every line that is blank, comment-prefixed, or otherwise
classified as non-data (fewer than four whitespace-separated fields),
`format (parse line)` equals the input line exactly, including trailing
whitespace and absence of a trailing newline when the input lacked one. -/
theorem c8_nondata_roundtrip (line : Str)
    (h : (pyStrip line).isEmpty = true ∨
         ((str "#").isPrefixOf (pyStrip line)) = true ∨
         (pySplit (pyStrip line)).length < 4) :
    FstabEntry.format (FstabEntry.parse line) = line := by
  by_cases h1 : ((pyStrip line).isEmpty || (str "#").isPrefixOf (pyStrip line)) = true
  · simp [FstabEntry.parse, FstabEntry.format, h1]
  · have h2 : (pySplit (pyStrip line)).length < 4 := by
      rcases h with h | h | h
      · exact absurd (by simp [h]) h1
      · exact absurd (by simp [h]) h1
      · exact h
    simp only [Bool.not_eq_true] at h1
    simp [FstabEntry.parse, FstabEntry.format, h1, h2]

/-- Witness for C8 at the concrete comment line `"#  boot table \t"`. -/
theorem c8_nondata_roundtrip_witness :
    FstabEntry.format (FstabEntry.parse (str "#  boot table \t")) = str "#  boot table \t" :=
  c8_nondata_roundtrip (str "#  boot table \t") (Or.inr (Or.inl (by decide)))

/-- C10: for every data line with more than six whitespace-separated
fields, `parse` retains only the first six tokens, so `format` of the
parsed entry is built from the first six tokens alone and every later
token is dropped from the output. -/
theorem c10_extra_fields_dropped (line : Str)
    (hcom : ((str "#").isPrefixOf (pyStrip line)) = false)
    (hlen : 6 < (pySplit (pyStrip line)).length) :
    (FstabEntry.parse line).is_data = true ∧
    FstabEntry.format (FstabEntry.parse line) =
      (pySplit (pyStrip line)).getD 0 [] ++ str "\t" ++
      (pySplit (pyStrip line)).getD 1 [] ++ str "\t" ++
      (pySplit (pyStrip line)).getD 2 [] ++ str "\t" ++
      (pySplit (pyStrip line)).getD 3 [] ++ str "\t" ++
      (pySplit (pyStrip line)).getD 4 [] ++ str " " ++
      (pySplit (pyStrip line)).getD 5 [] ++ str "\n" := by
  have hne : (pyStrip line).isEmpty = false := by
    cases hstr : pyStrip line with
    | nil => rw [hstr] at hlen; simp [pySplit, pySplitAux] at hlen
    | cons a l => simp [List.isEmpty]
  have h1 : ((pyStrip line).isEmpty || (str "#").isPrefixOf (pyStrip line)) = false := by
    simp [hne, hcom]
  have h2 : ¬ ((pySplit (pyStrip line)).length < 4) := by omega
  have h4 : (pySplit (pyStrip line)).length > 4 := by omega
  have h5 : (pySplit (pyStrip line)).length > 5 := by omega
  constructor
  · simp [FstabEntry.parse, h1, h2]
  · simp [FstabEntry.parse, FstabEntry.format, h1, h2, h4, h5]

/-- Witness for C10 at a concrete seven-field line: the seventh field
`x-systemd.device` is absent from the re-serialized output. -/
theorem c10_extra_fields_dropped_witness :
    (FstabEntry.parse (str "/dev/sda2 / btrfs rw 0 0 x-systemd.device")).is_data = true ∧
    FstabEntry.format (FstabEntry.parse (str "/dev/sda2 / btrfs rw 0 0 x-systemd.device")) =
      (pySplit (pyStrip (str "/dev/sda2 / btrfs rw 0 0 x-systemd.device"))).getD 0 [] ++ str "\t" ++
      (pySplit (pyStrip (str "/dev/sda2 / btrfs rw 0 0 x-systemd.device"))).getD 1 [] ++ str "\t" ++
      (pySplit (pyStrip (str "/dev/sda2 / btrfs rw 0 0 x-systemd.device"))).getD 2 [] ++ str "\t" ++
      (pySplit (pyStrip (str "/dev/sda2 / btrfs rw 0 0 x-systemd.device"))).getD 3 [] ++ str "\t" ++
      (pySplit (pyStrip (str "/dev/sda2 / btrfs rw 0 0 x-systemd.device"))).getD 4 [] ++ str " " ++
      (pySplit (pyStrip (str "/dev/sda2 / btrfs rw 0 0 x-systemd.device"))).getD 5 [] ++ str "\n" :=
  c10_extra_fields_dropped (str "/dev/sda2 / btrfs rw 0 0 x-systemd.device")
    (by decide) (by decide)

/-- C6: `build_cmdline` is a pure function producing space-joined arguments
in the fixed order: encryption-unlock directive (emitted only under the
luks / luks+lvm topologies with a truthy — hence present — `luks_uuid`),
then `root=`, then `rootfstype=` exactly when `fstype` is non-empty, then
`rootflags=subvol=<newSubvol>` verbatim; and on the claim's concrete luks
case it returns exactly the claimed string. -/
theorem c6_cmdline_order :
    (∀ (info : RootInfo) (ns : Str), build_cmdline info ns =
      joinWith (str " ")
        ((if (info.type == str "luks" || info.type == str "luks+lvm") &&
             optTruthy info.luks_uuid
          then [str "rd.luks.name=" ++ (info.luks_uuid.getD []) ++ str "=" ++
                pyShowOpt info.luks_name]
          else []) ++
         [str "root=" ++ info.root_arg] ++
         (if info.fstype.isEmpty then [] else [str "rootfstype=" ++ info.fstype]) ++
         [str "rootflags=subvol=" ++ ns])) ∧
    (∀ info : RootInfo,
      ((info.type == str "luks" || info.type == str "luks+lvm") &&
        optTruthy info.luks_uuid) = true →
      info.luks_uuid.isSome = true) ∧
    build_cmdline exC6 (str "root-2") =
      str "rd.luks.name=abc-123=root_crypt root=/dev/mapper/root_crypt rootfstype=btrfs rootflags=subvol=root-2" := by
  refine ⟨?_, ?_, by decide⟩
  · intro info ns
    by_cases g1 : ((info.type == str "luks" || info.type == str "luks+lvm") &&
        optTruthy info.luks_uuid) = true
    · by_cases g2 : info.fstype.isEmpty = true
      · simp [build_cmdline, g1, g2, joinWith]
      · simp only [Bool.not_eq_true] at g2
        simp [build_cmdline, g1, g2, joinWith]
    · simp only [Bool.not_eq_true] at g1
      by_cases g2 : info.fstype.isEmpty = true
      · simp [build_cmdline, g1, g2, joinWith]
      · simp only [Bool.not_eq_true] at g2
        simp [build_cmdline, g1, g2, joinWith]
  · intro info h
    simp only [Bool.and_eq_true] at h
    rcases h with ⟨-, h2⟩
    cases hu : info.luks_uuid with
    | none => rw [hu] at h2; simp [optTruthy] at h2
    | some u => simp

/-- Witness for C6's hypothesis-bearing conjunct at the concrete example
info: its unlock-directive guard is true and `luks_uuid` is present. -/
theorem c6_cmdline_order_witness :
    ((exC6.type == str "luks" || exC6.type == str "luks+lvm") &&
      optTruthy exC6.luks_uuid) = true ∧
    exC6.luks_uuid.isSome = true :=
  ⟨by decide, c6_cmdline_order.2.1 exC6 (by decide)⟩

/-- C2: for every run of `update_fstab` that gets past the backup copy and
then hits a structural error — no data entry with mountpoint `/`, or the
rewrite loop changed zero entries — the operation returns failure and the
file at `path` still holds its original content byte for byte (the only
write performed is the `.bak` sibling). -/
theorem c2_structural_error_leaves_file (fs : FS) (path old new : Str)
    (tamper : Str → Str) (content : Str)
    (hread : fs.read path = some content)
    (hbak : withSuffix path (str ".bak") ≠ path)
    (hstruct : ((fstabEntries content).filter isRootEntry).isEmpty = true ∨
               updatedCount content old new = 0) :
    update_fstab fs path old new tamper =
      some (false, fs.write (withSuffix path (str ".bak")) content) ∧
    (fs.write (withSuffix path (str ".bak")) content).read path = some content := by
  constructor
  · by_cases hroot : ((fstabEntries content).filter isRootEntry).isEmpty = true
    · simp [update_fstab, hread, hbak, hroot]
    · have hupd : updatedCount content old new = 0 := by
        rcases hstruct with h | h
        · exact absurd h hroot
        · exact h
      simp only [Bool.not_eq_true] at hroot
      simp [update_fstab, hread, hbak, hroot, hupd]
  · rw [FS.read_write_ne fs _ content (Ne.symm hbak)]
    exact hread

/-- Witness for C2: a one-line table with no root entry is reported as a
failure and is unchanged at its path. -/
theorem c2_structural_error_leaves_file_witness :
    update_fstab [(str "/etc/fstab", str "/dev/sda1 /home ext4 rw 0 0\n")]
        (str "/etc/fstab") (str "old") (str "new") (fun t => t) =
      some (false,
        FS.write [(str "/etc/fstab", str "/dev/sda1 /home ext4 rw 0 0\n")]
          (withSuffix (str "/etc/fstab") (str ".bak"))
          (str "/dev/sda1 /home ext4 rw 0 0\n")) ∧
    (FS.write [(str "/etc/fstab", str "/dev/sda1 /home ext4 rw 0 0\n")]
        (withSuffix (str "/etc/fstab") (str ".bak"))
        (str "/dev/sda1 /home ext4 rw 0 0\n")).read (str "/etc/fstab") =
      some (str "/dev/sda1 /home ext4 rw 0 0\n") :=
  c2_structural_error_leaves_file
    [(str "/etc/fstab", str "/dev/sda1 /home ext4 rw 0 0\n")]
    (str "/etc/fstab") (str "old") (str "new") (fun t => t)
    (str "/dev/sda1 /home ext4 rw 0 0\n")
    (by decide) (by decide) (Or.inl (by decide))

/-- C1: in every run of `update_fstab` that reaches the atomic rename (the
backup copy succeeded, a root entry existed, and at least one entry was
rewritten), if the content observed by the post-commit re-read contains
neither `subvol=<newNorm>` nor `subvol=/<newNorm>`, the pipeline copies the
`.bak` content back over the committed path and returns failure; otherwise
it returns success with the observed content in place. -/
theorem c1_verify_rollback (fs : FS) (path old new : Str)
    (tamper : Str → Str) (content : Str)
    (hread : fs.read path = some content)
    (hbak : withSuffix path (str ".bak") ≠ path)
    (hroot : ((fstabEntries content).filter isRootEntry).isEmpty = false)
    (hupd : updatedCount content old new ≠ 0) :
    (strHas (str "subvol=/" ++ pyStripSlash new) (tamper (newFileText content old new)) = false ∧
     strHas (str "subvol=" ++ pyStripSlash new) (tamper (newFileText content old new)) = false →
      ∃ fsR, update_fstab fs path old new tamper = some (false, fsR) ∧
        fsR.read path = some content ∧
        fsR.read (withSuffix path (str ".bak")) = some content) ∧
    (strHas (str "subvol=/" ++ pyStripSlash new) (tamper (newFileText content old new)) = true ∨
     strHas (str "subvol=" ++ pyStripSlash new) (tamper (newFileText content old new)) = true →
      ∃ fsS, update_fstab fs path old new tamper = some (true, fsS) ∧
        fsS.read path = some (tamper (newFileText content old new))) := by
  have htmpbak : withSuffix path (str ".tmp") ≠ withSuffix path (str ".bak") :=
    Ne.symm (withSuffix_bak_ne_tmp path)
  have hpathbak : path ≠ withSuffix path (str ".bak") := Ne.symm hbak
  -- the filesystem as committed by the rename plus the possible tampering
  set bak := withSuffix path (str ".bak") with hbakdef
  set tmp := withSuffix path (str ".tmp") with htmpdef
  set out := newFileText content old new with houtdef
  set fs2 := (fs.write bak content).write tmp out with hfs2
  set fs4 := (FS.rename fs2 tmp path).write path (tamper out) with hfs4
  have hbaktmp : bak ≠ tmp := withSuffix_bak_ne_tmp path
  have hfs4bak : fs4.read bak = some content := by
    rw [hfs4, FS.read_write_ne _ _ _ hbak]
    by_cases htp : tmp = path
    · rw [FS.rename, if_pos htp, hfs2, FS.read_write_ne _ _ _ hbaktmp,
        FS.read_write_self]
    · simp only [FS.rename, if_neg htp, hfs2, FS.read_write_self]
      rw [FS.read_write_ne _ _ _ hbak, FS.read_erase_ne _ _ hbaktmp,
        FS.read_write_ne _ _ _ hbaktmp, FS.read_write_self]
  have hrun : update_fstab fs path old new tamper =
      (if !(strHas (str "subvol=/" ++ pyStripSlash new) (tamper out)) &&
          !(strHas (str "subvol=" ++ pyStripSlash new) (tamper out)) then
        some (false, fs4.write path ((fs4.read bak).getD []))
      else
        some (true, fs4)) := by
    simp only [update_fstab, hread, if_neg hbak, hroot, Bool.false_eq_true, if_false,
      if_neg hupd, ← hbakdef, ← htmpdef, ← houtdef, ← hfs2, ← hfs4]
  constructor
  · intro ⟨hA, hB⟩
    refine ⟨fs4.write path ((fs4.read bak).getD []), ?_, ?_, ?_⟩
    · rw [hrun, hA, hB]; rfl
    · rw [hfs4bak]; exact FS.read_write_self _ _ _
    · rw [FS.read_write_ne _ _ _ hbak]; exact hfs4bak
  · intro h
    refine ⟨fs4, ?_, ?_⟩
    · rw [hrun]
      rcases h with h | h <;> simp [h]
    · rw [hfs4, FS.read_write_self]

/-- Witness for C1 at a concrete one-entry table: a tampered re-read that
lacks the `subvol=` marker triggers rollback and failure, and an
undisturbed run reports success. -/
theorem c1_verify_rollback_witness :
    (∃ fsR, update_fstab [(str "/etc/fstab", str "UUID=1 / btrfs subvol=old 0 0\n")]
        (str "/etc/fstab") (str "old") (str "new") (fun _ => str "# tampered\n") =
        some (false, fsR) ∧
      fsR.read (str "/etc/fstab") = some (str "UUID=1 / btrfs subvol=old 0 0\n") ∧
      fsR.read (withSuffix (str "/etc/fstab") (str ".bak")) =
        some (str "UUID=1 / btrfs subvol=old 0 0\n")) ∧
    (∃ fsS, update_fstab [(str "/etc/fstab", str "UUID=1 / btrfs subvol=old 0 0\n")]
        (str "/etc/fstab") (str "old") (str "new") (fun t => t) = some (true, fsS) ∧
      fsS.read (str "/etc/fstab") =
        some ((fun t => t)
          (newFileText (str "UUID=1 / btrfs subvol=old 0 0\n") (str "old") (str "new")))) :=
  ⟨(c1_verify_rollback [(str "/etc/fstab", str "UUID=1 / btrfs subvol=old 0 0\n")]
      (str "/etc/fstab") (str "old") (str "new") (fun _ => str "# tampered\n")
      (str "UUID=1 / btrfs subvol=old 0 0\n")
      (by decide) (by decide) (by decide) (by decide)).1 ⟨by decide, by decide⟩,
   (c1_verify_rollback [(str "/etc/fstab", str "UUID=1 / btrfs subvol=old 0 0\n")]
      (str "/etc/fstab") (str "old") (str "new") (fun t => t)
      (str "UUID=1 / btrfs subvol=old 0 0\n")
      (by decide) (by decide) (by decide) (by decide)).2 (Or.inr (by decide))⟩

theorem FS.read_erase_self (fs : FS) (p : Str) : (fs.erase p).read p = none := by
  have hnone : (fs.filter (fun e => !(e.1 == p))).find? (fun e => e.1 == p) = none := by
    rw [List.find?_eq_none]
    intro x hx
    have hmem := (List.mem_filter.mp hx).2
    simpa using hmem
  unfold FS.erase FS.read
  rw [hnone]
  rfl

/-- Counterexample for C3: for the path `/etc/my.fstab` the successful run
leaves no `/etc/my.fstab.bak` and no `/etc/my.fstab.tmp`; the backup is at
`/etc/my.bak` — so the backup sibling is not `<path>.bak` in general. -/
theorem c3_counterexample :
    (update_fstab exC3fs (str "/etc/my.fstab") (str "old") (str "new")
        (fun t => t)).map (·.1) = some true ∧
    (update_fstab exC3fs (str "/etc/my.fstab") (str "old") (str "new")
        (fun t => t)).map (fun p => p.2.read (str "/etc/my.fstab.bak")) = some none ∧
    (update_fstab exC3fs (str "/etc/my.fstab") (str "old") (str "new")
        (fun t => t)).map (fun p => p.2.read (str "/etc/my.fstab.tmp")) = some none ∧
    (update_fstab exC3fs (str "/etc/my.fstab") (str "old") (str "new")
        (fun t => t)).map (fun p => p.2.read (str "/etc/my.bak")) =
      some (some (str "UUID=1 / btrfs subvol=old 0 0\n")) := by
  refine ⟨by decide, by decide, by decide, by decide⟩

/-- C3 (amended): the side files are the siblings produced by Python's
`with_suffix` — the final extension of the path's last component is
replaced by `.bak` / `.tmp`, and the suffix is appended only when that
component has no extension.  For every run of `update_fstab` that returns,
the `.bak` sibling holds the original content, and after a successful run
the `.tmp` sibling does not persist under its own name (whenever that name
is distinct from `path` itself, i.e. whenever `path` does not already end
in a `.tmp` extension). -/
theorem c3_amended_side_files (fs : FS) (path old new : Str) (tamper : Str → Str)
    (content : Str) (b : Bool) (fs2 : FS)
    (hread : fs.read path = some content)
    (hrun : update_fstab fs path old new tamper = some (b, fs2)) :
    fs2.read (withSuffix path (str ".bak")) = some content ∧
    (b = true → withSuffix path (str ".tmp") ≠ path →
      fs2.read (withSuffix path (str ".tmp")) = none) := by
  simp only [update_fstab, hread] at hrun
  by_cases hbp : withSuffix path (str ".bak") = path
  · rw [if_pos hbp] at hrun
    exact absurd hrun (by simp)
  · rw [if_neg hbp] at hrun
    have hbaktmp : withSuffix path (str ".bak") ≠ withSuffix path (str ".tmp") :=
      withSuffix_bak_ne_tmp path
    by_cases hroot : ((fstabEntries content).filter isRootEntry).isEmpty = true
    · simp only [hroot, if_true, Option.some.injEq, Prod.mk.injEq] at hrun
      rcases hrun with ⟨hb, hfs⟩
      subst hfs
      refine ⟨FS.read_write_self _ _ _, fun hbt _ => absurd (hb.trans hbt) (by simp)⟩
    · simp only [hroot, Bool.false_eq_true, if_false] at hrun
      by_cases hupd : updatedCount content old new = 0
      · simp only [hupd, if_true, Option.some.injEq, Prod.mk.injEq] at hrun
        rcases hrun with ⟨hb, hfs⟩
        subst hfs
        refine ⟨FS.read_write_self _ _ _, fun hbt _ => absurd (hb.trans hbt) (by simp)⟩
      · simp only [hupd, if_false] at hrun
        set bak := withSuffix path (str ".bak") with hbakdef
        set tmp := withSuffix path (str ".tmp") with htmpdef
        set out := newFileText content old new with houtdef
        set fs4 := (FS.rename ((fs.write bak content).write tmp out) tmp path).write path
          (tamper out) with hfs4
        have hfs4bak : fs4.read bak = some content := by
          rw [hfs4, FS.read_write_ne _ _ _ hbp]
          by_cases htp : tmp = path
          · rw [FS.rename, if_pos htp, FS.read_write_ne _ _ _ hbaktmp, FS.read_write_self]
          · simp only [FS.rename, if_neg htp, FS.read_write_self]
            rw [FS.read_write_ne _ _ _ hbp, FS.read_erase_ne _ _ hbaktmp,
              FS.read_write_ne _ _ _ hbaktmp, FS.read_write_self]
        by_cases hv : (!(strHas (str "subvol=/" ++ pyStripSlash new) (tamper out)) &&
            !(strHas (str "subvol=" ++ pyStripSlash new) (tamper out))) = true
        · simp only [hv, if_true, Option.some.injEq, Prod.mk.injEq] at hrun
          rcases hrun with ⟨hb, hfs⟩
          subst hfs
          refine ⟨?_, fun hbt _ => absurd (hb.trans hbt) (by simp)⟩
          rw [FS.read_write_ne _ _ _ hbp]
          exact hfs4bak
        · simp only [hv, Bool.false_eq_true, if_false, Option.some.injEq,
            Prod.mk.injEq] at hrun
          rcases hrun with ⟨-, hfs⟩
          subst hfs
          refine ⟨hfs4bak, fun _ htp => ?_⟩
          rw [hfs4, FS.read_write_ne _ _ _ htp]
          simp only [FS.rename, if_neg htp, FS.read_write_self]
          rw [FS.read_write_ne _ _ _ htp, FS.read_erase_self]

/-- Witness for C3's amended theorem at the `/etc/my.fstab` run: the backup
lands at `/etc/my.bak` (= `withSuffix path ".bak"`) and `/etc/my.tmp` does
not persist. -/
theorem c3_amended_side_files_witness :
    FS.read [(str "/etc/my.fstab", str "UUID=1\t/\tbtrfs\tsubvol=new\t0 0\n"),
             (str "/etc/my.bak", str "UUID=1 / btrfs subvol=old 0 0\n")]
        (withSuffix (str "/etc/my.fstab") (str ".bak")) =
      some (str "UUID=1 / btrfs subvol=old 0 0\n") ∧
    FS.read [(str "/etc/my.fstab", str "UUID=1\t/\tbtrfs\tsubvol=new\t0 0\n"),
             (str "/etc/my.bak", str "UUID=1 / btrfs subvol=old 0 0\n")]
        (withSuffix (str "/etc/my.fstab") (str ".tmp")) = none := by
  have h := c3_amended_side_files exC3fs (str "/etc/my.fstab") (str "old") (str "new")
    (fun t => t) (str "UUID=1 / btrfs subvol=old 0 0\n") true
    [(str "/etc/my.fstab", str "UUID=1\t/\tbtrfs\tsubvol=new\t0 0\n"),
     (str "/etc/my.bak", str "UUID=1 / btrfs subvol=old 0 0\n")]
    (by decide) (by decide)
  exact ⟨h.1, h.2 rfl (by decide)⟩

/-- Structure of `_detect_dm_type`: starting from an info with no
encryption fields set, the result can gain a `luks_uuid` only in branches
that set `luks_name` first, and every branch that leaves the topology
`plain` leaves both fields unset. -/
theorem dm_type_fields (w : World) (m : Str) (i : RootInfo)
    (hu : i.luks_uuid = none) (hn : i.luks_name = none) :
    ((_detect_dm_type w m i).luks_uuid.isSome = true →
      (_detect_dm_type w m i).luks_name.isSome = true) ∧
    ((_detect_dm_type w m i).type = str "plain" →
      (_detect_dm_type w m i).luks_uuid = none ∧
      (_detect_dm_type w m i).luks_name = none) := by
  by_cases h1 : (run (w.q (dmsetupCmd m))).isEmpty = true
  · simp only [_detect_dm_type, h1, Bool.not_true, Bool.false_eq_true, if_false]
    by_cases h2 : (run (w.q (lvsCmd m))).isEmpty = true
    · simp only [h2, Bool.not_true, Bool.false_eq_true, if_false]
      exact ⟨fun _ => by simp [hu] at *, fun _ => ⟨hu, hn⟩⟩
    · simp only [h2, Bool.not_false, if_true]
      cases h3 : (pySplit (run (w.q (lvsCmd m)))).head? with
      | none =>
        simp only []
        exact ⟨fun h => by simp [hu] at h, fun h => by simp [str] at h⟩
      | some vg =>
        simp only []
        by_cases h4 : (!(pyStrip (run (w.q (pvsCmd vg)))).isEmpty &&
            strHas (str "/mapper/") (pyStrip (run (w.q (pvsCmd vg))))) = true
        · simp only [h4, if_true]
          by_cases h5 : (run (w.q (dmsetupCmd
              (lastComponent (pyStrip (run (w.q (pvsCmd vg)))))))).isEmpty = true
          · simp only [h5, Bool.not_true, Bool.false_eq_true, if_false]
            exact ⟨fun h => by simp [hu] at h, fun h => by simp [str] at h⟩
          · simp only [h5, Bool.not_false, if_true]
            cases h6 : luksProbe w (lastComponent (pyStrip (run (w.q (pvsCmd vg))))) with
            | none => exact ⟨fun _ => by simp, fun h => by simp [str] at h⟩
            | some uuid => exact ⟨fun _ => by simp, fun h => by simp [str] at h⟩
        · simp only [h4, Bool.false_eq_true, if_false]
          exact ⟨fun h => by simp [hu] at h, fun h => by simp [str] at h⟩
  · simp only [_detect_dm_type, h1, Bool.not_eq_true] at *
    simp only [h1, Bool.not_false, if_true]
    cases h6 : luksProbe w m with
    | none => exact ⟨fun _ => by simp, fun h => by simp [str] at h⟩
    | some uuid => exact ⟨fun _ => by simp, fun h => by simp [str] at h⟩

/-- C4 (amended): for every `RootDeviceInfo` produced by `detect_root`,
a present `luksUuid` implies a present `luksName` (but not conversely:
`luksName` can be present with `luksUuid` absent when the UUID lookup
fails), and topology `plain` implies both are absent. -/
theorem c4_amended_luks_fields (w : World) (info : RootInfo)
    (h : detect_root w = some info) :
    (info.luks_uuid.isSome = true → info.luks_name.isSome = true) ∧
    (info.type = str "plain" → info.luks_uuid = none ∧ info.luks_name = none) := by
  by_cases hraw : (run (w.q findmntCmd)).isEmpty = true
  · simp [detect_root, hraw] at h
  · simp only [detect_root, hraw, Bool.false_eq_true, if_false] at h
    cases hjson : w.jsonParse (run (w.q findmntCmd)) with
    | none => rw [hjson] at h; simp at h
    | some data =>
      rw [hjson] at h
      simp only [] at h
      by_cases hmap : (strHas (str "/mapper/") (baseInfo data).source ||
          (str "/dev/dm-").isPrefixOf (baseInfo data).source) = true
      · rw [if_pos hmap, Option.some.injEq] at h
        subst h
        exact dm_type_fields w (lastComponent (baseInfo data).source) (baseInfo data)
          rfl rfl
      · rw [if_neg (by simpa using hmap), Option.some.injEq] at h
        subst h
        exact ⟨fun hs => by simp [baseInfo] at hs, fun _ => ⟨rfl, rfl⟩⟩

/-- Counterexample for C4: `detect_root` produces an info whose `luksName`
is present while `luksUuid` is absent, so the two fields are not always
present-or-absent together. -/
theorem c4_counterexample :
    (detect_root wC4).map RootInfo.type = some (str "luks") ∧
    (detect_root wC4).map RootInfo.luks_name = some (some (str "cr")) ∧
    (detect_root wC4).map RootInfo.luks_uuid = some none := by
  refine ⟨by decide, by decide, by decide⟩

/-- Witness for C4's amended theorem at the `wC4` detection result. -/
theorem c4_amended_luks_fields_witness :
    (exC4info.luks_uuid.isSome = true → exC4info.luks_name.isSome = true) ∧
    (exC4info.type = str "plain" →
      exC4info.luks_uuid = none ∧ exC4info.luks_name = none) :=
  c4_amended_luks_fields wC4 exC4info (by decide)

/-- C5 (amended): in the LVM branch of `_detect_dm_type` (crypt-table
query empty, logical-volume query non-empty), the topology is upgraded to
`luks+lvm` exactly when the physical-volume listing for the containing
volume group is non-empty, contains `/mapper/` somewhere, and the
crypt-table query for the text after the listing's last slash is
non-empty; the code never counts the physical volumes, and on upgrade
`luksName` is that trailing text.  (With several physical volumes the
listing is multi-line and the name after its last slash is the last
entry's, so the upgrade is not restricted to single-PV volume groups.) -/
theorem c5_amended_lvm_upgrade (w : World) (m : Str) (i : RootInfo) (vg : Str)
    (h1 : run (w.q (dmsetupCmd m)) = [])
    (h2 : (run (w.q (lvsCmd m))).isEmpty = false)
    (h3 : (pySplit (run (w.q (lvsCmd m)))).head? = some vg) :
    ((_detect_dm_type w m i).type = str "luks+lvm" ↔
      ((pyStrip (run (w.q (pvsCmd vg)))).isEmpty = false ∧
       strHas (str "/mapper/") (pyStrip (run (w.q (pvsCmd vg)))) = true ∧
       (run (w.q (dmsetupCmd
         (lastComponent (pyStrip (run (w.q (pvsCmd vg)))))))).isEmpty = false)) ∧
    ((_detect_dm_type w m i).type = str "luks+lvm" →
      (_detect_dm_type w m i).luks_name =
        some (lastComponent (pyStrip (run (w.q (pvsCmd vg)))))) := by
  have h1e : (run (w.q (dmsetupCmd m))).isEmpty = true := by rw [h1]; rfl
  simp only [_detect_dm_type, h1e, Bool.not_true, Bool.false_eq_true, if_false,
    h2, Bool.not_false, if_true, h3]
  by_cases h4 : (!(pyStrip (run (w.q (pvsCmd vg)))).isEmpty &&
      strHas (str "/mapper/") (pyStrip (run (w.q (pvsCmd vg))))) = true
  · simp only [h4, if_true]
    by_cases h5 : (run (w.q (dmsetupCmd
        (lastComponent (pyStrip (run (w.q (pvsCmd vg)))))))).isEmpty = true
    · simp only [h5, Bool.not_true, Bool.false_eq_true, if_false]
      constructor
      · constructor
        · intro h; exact absurd h (by simp [str])
        · rintro ⟨-, -, h⟩; exact absurd h (by decide)
      · intro h; exact absurd h (by simp [str])
    · simp only [h5, Bool.not_false, if_true]
      simp only [Bool.and_eq_true, Bool.not_eq_true'] at h4
      cases h6 : luksProbe w (lastComponent (pyStrip (run (w.q (pvsCmd vg))))) with
      | none =>
        exact ⟨⟨fun _ => ⟨h4.1, h4.2, by simp [h5]⟩, fun _ => rfl⟩, fun _ => rfl⟩
      | some uuid =>
        exact ⟨⟨fun _ => ⟨h4.1, h4.2, by simp [h5]⟩, fun _ => rfl⟩, fun _ => rfl⟩
  · simp only [h4, Bool.false_eq_true, if_false]
    constructor
    · constructor
      · intro h; exact absurd h (by simp [str])
      · rintro ⟨ha, hb, -⟩
        simp only [Bool.and_eq_true, Bool.not_eq_true'] at h4
        exact (h4 ⟨ha, hb⟩).elim
    · intro h; exact absurd h (by simp [str])

/-- Counterexample for C5: the volume group's physical-volume listing has
two entries (two mapper-backed physical volumes), yet the topology is
still upgraded to `luks+lvm` — using the name after the whole listing's
last slash — so the upgrade is not conditioned on exactly one physical
volume. -/
theorem c5_counterexample :
    (splitlines (run (wC5.q (pvsCmd (str "vg0"))))).length = 2 ∧
    (detect_root wC5).map RootInfo.type = some (str "luks+lvm") ∧
    (detect_root wC5).map RootInfo.luks_name = some (some (str "c2")) ∧
    (detect_root wC5).map RootInfo.luks_uuid = some (some (str "def-456")) := by
  refine ⟨by decide, by decide, by decide, by decide⟩

/-- Witness for C5's amended theorem in the `wC5` world. -/
theorem c5_amended_lvm_upgrade_witness :
    ((_detect_dm_type wC5 (str "vg0-root") exC5base).type = str "luks+lvm" ↔
      ((pyStrip (run (wC5.q (pvsCmd (str "vg0"))))).isEmpty = false ∧
       strHas (str "/mapper/") (pyStrip (run (wC5.q (pvsCmd (str "vg0"))))) = true ∧
       (run (wC5.q (dmsetupCmd
         (lastComponent (pyStrip (run (wC5.q (pvsCmd (str "vg0"))))))))).isEmpty = false)) ∧
    ((_detect_dm_type wC5 (str "vg0-root") exC5base).type = str "luks+lvm" →
      (_detect_dm_type wC5 (str "vg0-root") exC5base).luks_name =
        some (lastComponent (pyStrip (run (wC5.q (pvsCmd (str "vg0"))))))) :=
  c5_amended_lvm_upgrade wC5 (str "vg0-root") exC5base (str "vg0")
    (by decide) (by decide) (by decide)

/-- Detection only sees the external world through the text `run` returns
(and the JSON-parse abstraction): worlds with the same run-view detect
identically. -/
theorem detect_root_congr (w w2 : World)
    (hq : ∀ c, run (w.q c) = run (w2.q c)) (hj : w.jsonParse = w2.jsonParse) :
    detect_root w = detect_root w2 := by
  have hluks : ∀ m, luksProbe w m = luksProbe w2 m := by
    intro m; simp only [luksProbe, hq]
  have hdm : ∀ m i, _detect_dm_type w m i = _detect_dm_type w2 m i := by
    intro m i; simp only [_detect_dm_type, hq, hluks]
  simp only [detect_root, hq, hj, hdm]

/-- C9: every failing external query (tool absent, non-zero exit status, or
timeout) yields the empty result, a failing outcome is indistinguishable
from a successful empty output — so detection proceeds to the next
candidate classification instead of aborting, and `detect_root` (a total
function in this embedding: it never raises) is unchanged by the failure
mode — and concretely, a timed-out crypt-table query falls through to the
`lvm` classification. -/
theorem c9_query_failures_nonfatal :
    (∀ o : Outcome, o.isFailure = true → run o = []) ∧
    (∀ (w : World) (c0 : List Str) (f : Outcome), f.isFailure = true →
      detect_root (setQ w c0 f) = detect_root (setQ w c0 (.ok 0 []))) ∧
    (detect_root wC9).map RootInfo.type = some (str "lvm") ∧
    (detect_root wC9).map RootInfo.root_arg = some (str "/dev/mapper/vg0-root") := by
  have hfail : ∀ o : Outcome, o.isFailure = true → run o = [] := by
    intro o h
    cases o with
    | ok rc out =>
      simp only [Outcome.isFailure, Bool.not_eq_true'] at h
      simp [run, h]
    | timeout => rfl
    | notFound => rfl
  refine ⟨hfail, ?_, by decide, by decide⟩
  intro w c0 f hf
  apply detect_root_congr
  · intro c
    by_cases hc : c = c0
    · simp only [setQ, hc, eq_self_iff_true, ite_true]
      rw [hfail f hf]
      rfl
    · simp only [setQ, if_neg hc]
  · rfl

/-- Witness for C9: a timed-out outcome produces the empty result, and
substituting a timeout for a query leaves detection unchanged relative to
an empty successful output. -/
theorem c9_query_failures_nonfatal_witness :
    run Outcome.timeout = [] ∧
    detect_root (setQ wC9 (dmsetupCmd (str "x")) Outcome.timeout) =
      detect_root (setQ wC9 (dmsetupCmd (str "x")) (Outcome.ok 0 [])) :=
  ⟨c9_query_failures_nonfatal.1 Outcome.timeout rfl,
   c9_query_failures_nonfatal.2.1 wC9 (dmsetupCmd (str "x")) Outcome.timeout rfl⟩

theorem dropWhile_rev_stable (p : Char → Bool) (A : Str) (hAd : A.dropWhile p = A) :
    ((A.reverse.dropWhile p).reverse).dropWhile p = (A.reverse.dropWhile p).reverse := by
  cases hA2 : A with
  | nil => simp [hA2]
  | cons a A2 =>
    have hpa : p a = false := by
      by_contra hpa
      simp only [Bool.not_eq_false] at hpa
      rw [hA2, List.dropWhile_cons, if_pos hpa] at hAd
      have h1 : (A2.dropWhile p).length ≤ A2.length :=
        (List.dropWhile_sublist p).length_le
      rw [hAd] at h1
      simp at h1
    rw [List.reverse_cons, List.dropWhile_append]
    by_cases he : (A2.reverse.dropWhile p).isEmpty = true
    · simp only [he, if_true]
      simp [List.dropWhile_cons, hpa]
    · simp only [he, Bool.false_eq_true, if_false]
      rw [List.reverse_append]
      simp [List.dropWhile_cons, hpa]

theorem pyStripSlash_lstrip (s : Str) :
    pyLstripSlash (pyStripSlash s) = pyStripSlash s := by
  unfold pyLstripSlash pyStripSlash
  exact dropWhile_rev_stable _ (s.dropWhile _) (List.dropWhile_idempotent _ _)

theorem pyStripSlash_no_slash_head (s : Str) :
    (str "/").isPrefixOf (pyStripSlash s) = false := by
  cases h : pyStripSlash s with
  | nil => rfl
  | cons b rest =>
    have hstable := pyStripSlash_lstrip s
    rw [h] at hstable
    unfold pyLstripSlash at hstable
    rw [List.dropWhile_cons] at hstable
    by_cases hb : b = '/'
    · rw [if_pos (by simp [hb])] at hstable
      have h1 : (rest.dropWhile (fun c => decide (c = '/'))).length ≤ rest.length :=
        (List.dropWhile_sublist _).length_le
      rw [hstable] at h1
      simp at h1
    · simp [str, List.isPrefixOf, Ne.symm hb]

theorem pyLstripSlash_cons_slash (t : Str) :
    pyLstripSlash ('/' :: t) = pyLstripSlash t := by
  simp [pyLstripSlash, List.dropWhile_cons]

theorem mem_pyStripSlash {a : Char} {s : Str} (h : a ∈ pyStripSlash s) : a ∈ s := by
  unfold pyStripSlash at h
  rw [List.mem_reverse] at h
  have h1 := (List.dropWhile_sublist _).subset h
  rw [List.mem_reverse] at h1
  exact (List.dropWhile_sublist _).subset h1

theorem isPrefixOf_append_self (l t : Str) : l.isPrefixOf (l ++ t) = true := by
  rw [ List.isPrefixOf_iff_prefix]
  exact List.prefix_append l t

theorem drop7_subvol (V : Str) : (str "subvol=" ++ V).drop 7 = V := by
  have h : (str "subvol=").length = 7 := rfl
  rw [← h, List.drop_left]

theorem splitOnChar_ne_nil (c : Char) (s : Str) : splitOnChar c s ≠ [] := by
  cases s with
  | nil => simp [splitOnChar]
  | cons a rest =>
    simp only [splitOnChar]
    cases h : splitOnChar c rest with
    | nil => simp
    | cons r rs => by_cases hc : a = c <;> simp [hc]

theorem mem_splitOnChar_not_sep (c : Char) :
    ∀ (s : Str) (x : Str), x ∈ splitOnChar c s → c ∉ x := by
  intro s
  induction s with
  | nil =>
    intro x hx
    simp only [splitOnChar, List.mem_singleton] at hx
    subst hx
    simp
  | cons a rest ih =>
    intro x hx
    cases h : splitOnChar c rest with
    | nil => exact absurd h (splitOnChar_ne_nil c rest)
    | cons r rs =>
      simp only [splitOnChar, h] at hx
      by_cases hc : a = c
      · rw [if_pos hc] at hx
        rcases List.mem_cons.mp hx with rfl | hx2
        · simp
        · exact ih x (by rw [h]; exact hx2)
      · rw [if_neg hc] at hx
        rcases List.mem_cons.mp hx with rfl | hx2
        · intro hmem
          rcases List.mem_cons.mp hmem with rfl | hmem2
          · exact hc rfl
          · exact ih r (by rw [h]; exact List.mem_cons_self r rs) hmem2
        · exact ih x (by rw [h]; exact List.mem_cons_of_mem r hx2)

theorem joinWith_cons_head (sep : Str) (a : Char) (x : Str) (rs : List Str) :
    joinWith sep ((a :: x) :: rs) = a :: joinWith sep (x :: rs) := by
  cases rs with
  | nil => rfl
  | cons y rest => simp [joinWith]

theorem joinWith_splitOnChar (c : Char) (s : Str) :
    joinWith [c] (splitOnChar c s) = s := by
  induction s with
  | nil => rfl
  | cons a rest ih =>
    simp only [splitOnChar]
    cases h : splitOnChar c rest with
    | nil => exact absurd h (splitOnChar_ne_nil c rest)
    | cons r rs =>
      rw [h] at ih
      simp only [h]
      by_cases hc : a = c
      · rw [if_pos hc]
        simp [joinWith, ih, hc]
      · rw [if_neg hc]
        rw [joinWith_cons_head, ih]

theorem splitOnChar_single (c : Char) (x : Str) (h : c ∉ x) : splitOnChar c x = [x] := by
  induction x with
  | nil => rfl
  | cons a rest ih =>
    have hrest : c ∉ rest := fun hm => h (List.mem_cons_of_mem a hm)
    have ha : ¬(a = c) := fun he => h (by rw [← he]; exact List.mem_cons_self a rest)
    simp only [splitOnChar, ih hrest, if_neg ha]

theorem splitOnChar_append_sep (c : Char) (x t : Str) (h : c ∉ x) :
    splitOnChar c (x ++ c :: t) = x :: splitOnChar c t := by
  induction x with
  | nil =>
    simp only [List.nil_append, splitOnChar]
    cases ht : splitOnChar c t with
    | nil => exact absurd ht (splitOnChar_ne_nil c t)
    | cons r rs => simp [ht]
  | cons a rest ih =>
    have hrest : c ∉ rest := fun hm => h (List.mem_cons_of_mem a hm)
    have ha : ¬(a = c) := fun he => h (by rw [← he]; exact List.mem_cons_self a _)
    rw [List.cons_append]
    simp only [splitOnChar]
    rw [ih hrest]
    dsimp only
    rw [if_neg ha]

theorem splitOnChar_joinWith (c : Char) (L : List Str)
    (h : ∀ x ∈ L, c ∉ x) : L ≠ [] → splitOnChar c (joinWith [c] L) = L := by
  induction L with
  | nil => intro hL; exact absurd rfl hL
  | cons x L2 ih =>
    intro _
    cases L2 with
    | nil => exact splitOnChar_single c x (h x (List.mem_cons_self _ _))
    | cons y L3 =>
      have hx : c ∉ x := h x (List.mem_cons_self _ _)
      show splitOnChar c (x ++ [c] ++ joinWith [c] (y :: L3)) = x :: y :: L3
      rw [List.append_assoc, List.singleton_append,
        splitOnChar_append_sep c x _ hx,
        ih (fun z hz => h z (List.mem_cons_of_mem _ hz)) (by simp)]

theorem subvolOptStep_no (oldN newN o : Str)
    (ho : (str "subvol=").isPrefixOf o = false) :
    subvolOptStep oldN newN o = (false, o) := by
  simp [subvolOptStep, ho]

theorem subvolOptStep_yes (oldN newN V : Str) (hm : pyLstripSlash V = oldN) :
    subvolOptStep oldN newN (str "subvol=" ++ V) =
      (true, str "subvol=" ++
        ((if (str "/").isPrefixOf V then str "/" else []) ++ newN)) := by
  simp only [subvolOptStep, isPrefixOf_append_self, if_true, drop7_subvol, hm]

/-- Evaluation of `replace_subvol` on an entry whose option list splits as
`pre ++ [subvol=<V>] ++ post` with `V` matching `old` and no other
`subvol=`-prefixed option. -/
theorem replace_subvol_spec (e : FstabEntry) (old new : Str)
    (pre post : List Str) (V : Str)
    (hdata : e.is_data = true)
    (hsplit : splitOnChar ',' e.options = pre ++ (str "subvol=" ++ V) :: post)
    (hpre : ∀ o ∈ pre, (str "subvol=").isPrefixOf o = false)
    (hpost : ∀ o ∈ post, (str "subvol=").isPrefixOf o = false)
    (hmatch : pyLstripSlash V = pyStripSlash old) :
    e.replace_subvol old new =
      (true, { e with options := rewrittenOptions pre post V new }) := by
  unfold rewrittenOptions
  have hpre2 : pre.map (subvolOptStep (pyStripSlash old) (pyStripSlash new)) =
      pre.map (fun o => ((false : Bool), o)) :=
    List.map_eq_map_iff.mpr (fun o ho => subvolOptStep_no _ _ o (hpre o ho))
  have hpost2 : post.map (subvolOptStep (pyStripSlash old) (pyStripSlash new)) =
      post.map (fun o => ((false : Bool), o)) :=
    List.map_eq_map_iff.mpr (fun o ho => subvolOptStep_no _ _ o (hpost o ho))
  simp only [FstabEntry.replace_subvol, hdata, Bool.not_true, Bool.false_eq_true,
    if_false, hsplit, List.map_append, List.map_cons, hpre2, hpost2,
    subvolOptStep_yes _ _ V hmatch]
  simp [List.any_append, List.map_map, Function.comp]

/-- C7 (amended): for every data entry whose option list contains exactly
one `subvol=`-prefixed option, with literal value `X`, applying
`replaceSubvol(e, X, Y)` and then `replaceSubvol(e, Y, X)` restores the
original options string, provided `X` is in normal form up to one leading
slash (`X` equals its slash-stripped form, or `/` followed by it — a value
such as `//x` is rewritten back as `/x` instead) and `Y` contains no
comma (a comma inside `Y` would be re-split as an option separator by the
second pass). -/
theorem c7_amended_roundtrip (e : FstabEntry) (X Y : Str) (pre post : List Str)
    (hdata : e.is_data = true)
    (hsplit : splitOnChar ',' e.options = pre ++ (str "subvol=" ++ X) :: post)
    (hpre : ∀ o ∈ pre, (str "subvol=").isPrefixOf o = false)
    (hpost : ∀ o ∈ post, (str "subvol=").isPrefixOf o = false)
    (hX : X = pyStripSlash X ∨ X = '/' :: pyStripSlash X)
    (hY : (',' : Char) ∉ Y) :
    ((e.replace_subvol X Y).2.replace_subvol Y X).2.options = e.options := by
  have hcomma : str "," = [','] := rfl
  have hpreC : ∀ o ∈ pre, (',' : Char) ∉ o := fun o ho =>
    mem_splitOnChar_not_sep ',' e.options o (by rw [hsplit]; exact List.mem_append_left _ ho)
  have hpostC : ∀ o ∈ post, (',' : Char) ∉ o := fun o ho =>
    mem_splitOnChar_not_sep ',' e.options o
      (by rw [hsplit]; exact List.mem_append_right _ (List.mem_cons_of_mem _ ho))
  have hYn : (',' : Char) ∉ pyStripSlash Y := fun hm => hY (mem_pyStripSlash hm)
  have hmatch1 : pyLstripSlash X = pyStripSlash X := by
    rcases hX with h | h
    · conv_lhs => rw [h]
      exact pyStripSlash_lstrip X
    · conv_lhs => rw [h]
      rw [pyLstripSlash_cons_slash]
      exact pyStripSlash_lstrip X
  have h1 := replace_subvol_spec e X Y pre post X hdata hsplit hpre hpost hmatch1
  have hjoin : joinWith (str ",") (pre ++ (str "subvol=" ++ X) :: post) = e.options := by
    rw [← hsplit, hcomma]
    exact joinWith_splitOnChar ',' e.options
  rcases hX with hx | hx
  · -- X has no leading slash
    have hPR : (str "/").isPrefixOf X = false := by
      rw [hx]
      exact pyStripSlash_no_slash_head X
    have hro : rewrittenOptions pre post X Y =
        joinWith (str ",") (pre ++ (str "subvol=" ++ pyStripSlash Y) :: post) := by
      unfold rewrittenOptions
      rw [hPR]
      simp
    have hsplit2 : splitOnChar ',' (rewrittenOptions pre post X Y) =
        pre ++ (str "subvol=" ++ pyStripSlash Y) :: post := by
      rw [hro, hcomma]
      apply splitOnChar_joinWith
      · intro x hxm
        rcases List.mem_append.mp hxm with hxm | hxm
        · exact hpreC x hxm
        · rcases List.mem_cons.mp hxm with rfl | hxm
          · intro hc
            rcases List.mem_append.mp hc with hc | hc
            · exact absurd hc (by decide)
            · exact hYn hc
          · exact hpostC x hxm
      · simp
    have h2 := replace_subvol_spec { e with options := rewrittenOptions pre post X Y }
      Y X pre post (pyStripSlash Y) hdata hsplit2 hpre hpost (pyStripSlash_lstrip Y)
    simp only [h1, h2]
    show rewrittenOptions pre post (pyStripSlash Y) X = e.options
    unfold rewrittenOptions
    rw [pyStripSlash_no_slash_head Y]
    simp only [Bool.false_eq_true, if_false, List.nil_append]
    rw [← hx]
    exact hjoin
  · -- X has exactly one leading slash
    have hPR : (str "/").isPrefixOf X = true := by
      rw [hx]
      simp [str, List.isPrefixOf]
    have hro : rewrittenOptions pre post X Y =
        joinWith (str ",") (pre ++ (str "subvol=" ++ ('/' :: pyStripSlash Y)) :: post) := by
      unfold rewrittenOptions
      rw [hPR]
      rfl
    have hsplit2 : splitOnChar ',' (rewrittenOptions pre post X Y) =
        pre ++ (str "subvol=" ++ ('/' :: pyStripSlash Y)) :: post := by
      rw [hro, hcomma]
      apply splitOnChar_joinWith
      · intro x hxm
        rcases List.mem_append.mp hxm with hxm | hxm
        · exact hpreC x hxm
        · rcases List.mem_cons.mp hxm with rfl | hxm
          · intro hc
            rcases List.mem_append.mp hc with hc | hc
            · exact absurd hc (by decide)
            · rcases List.mem_cons.mp hc with hc | hc
              · exact absurd hc (by decide)
              · exact hYn hc
          · exact hpostC x hxm
      · simp
    have hmatch2 : pyLstripSlash ('/' :: pyStripSlash Y) = pyStripSlash Y := by
      rw [pyLstripSlash_cons_slash]
      exact pyStripSlash_lstrip Y
    have h2 := replace_subvol_spec { e with options := rewrittenOptions pre post X Y }
      Y X pre post ('/' :: pyStripSlash Y) hdata hsplit2 hpre hpost hmatch2
    simp only [h1, h2]
    show rewrittenOptions pre post ('/' :: pyStripSlash Y) X = e.options
    unfold rewrittenOptions
    rw [show (str "/").isPrefixOf ('/' :: pyStripSlash Y) = true by
      simp [str, List.isPrefixOf]]
    simp only [if_true]
    rw [show str "/" ++ pyStripSlash X = '/' :: pyStripSlash X from rfl, ← hx]
    exact hjoin

/-- Counterexample for C7: for the entry whose only `subvol=` option value
is `X = //x`, the forward rewrite to `y` and the rewrite back to `//x`
produce `subvol=/x` (a single preserved slash), not the original
`subvol=//x` — so the double rewrite does not restore the options string
for every value `X`. -/
theorem c7_counterexample :
    splitOnChar ',' (FstabEntry.parse (str "dev / btrfs subvol=//x 0 0")).options =
      [str "subvol=" ++ str "//x"] ∧
    (((FstabEntry.parse (str "dev / btrfs subvol=//x 0 0")).replace_subvol
        (str "//x") (str "y")).2.replace_subvol (str "y") (str "//x")).2.options =
      str "subvol=/x" ∧
    ¬((((FstabEntry.parse (str "dev / btrfs subvol=//x 0 0")).replace_subvol
        (str "//x") (str "y")).2.replace_subvol (str "y") (str "//x")).2.options =
      (FstabEntry.parse (str "dev / btrfs subvol=//x 0 0")).options) := by
  refine ⟨by decide, by decide, by decide⟩

/-- Witness for C7's amended theorem at a concrete entry with options
`rw,subvol=/old`, rewritten to `new` and back to `/old`. -/
theorem c7_amended_roundtrip_witness :
    (((FstabEntry.parse (str "UUID=1 / btrfs rw,subvol=/old 0 0")).replace_subvol
        (str "/old") (str "new")).2.replace_subvol (str "new") (str "/old")).2.options =
      (FstabEntry.parse (str "UUID=1 / btrfs rw,subvol=/old 0 0")).options :=
  c7_amended_roundtrip (FstabEntry.parse (str "UUID=1 / btrfs rw,subvol=/old 0 0"))
    (str "/old") (str "new") [str "rw"] []
    (by decide) (by decide) (by decide) (by decide)
    (Or.inr (by decide)) (by decide)
